import Mathlib

/-!
Formal model of the WhisperX transcription service
(`Typist/Services/Python/whisperx_service.py`).

The Python service is embedded shallowly:

* Python strings are `List Char`; `str.strip` / `str.startswith` are modelled
  by `stripChars` / `startsWithPunct`.
* The external capabilities (torch, whisperx, the filesystem, the accelerator
  runtime) are collected in an `Env` record; a fallible call is an
  `Except PyExc _` value, where `PyExc` distinguishes `ImportError` from every
  other exception, mirroring the service's `except ImportError` /
  `except Exception` handlers.
* The mutable service object (`self.model`, `self.align_model`,
  `self.metadata`, `self.device`) is a `ServiceState` threaded explicitly.
* Operations additionally return the list of external calls they issued
  (`CallEv`), so that "never attempts model load" style properties are
  statements about the returned trace.
-/

/-- Model of Python's `str.isspace` / the characters removed by `str.strip`. -/
def isPySpace (c : Char) : Bool := c.isWhitespace

/-- Model of `s.lstrip()`: drop leading whitespace. -/
def lstripChars (s : List Char) : List Char := s.dropWhile isPySpace

/-- Model of `s.rstrip()`: drop trailing whitespace. -/
def rstripChars : List Char → List Char
  | [] => []
  | c :: t =>
    match rstripChars t with
    | [] => if isPySpace c then [] else [c]
    | r => c :: r

/-- Model of `s.strip()`: drop leading and trailing whitespace. -/
def stripChars (s : List Char) : List Char := rstripChars (lstripChars s)

/-- The fixed punctuation set of `text.startswith(('.', ',', '!', '?', ';', ':'))`
in `_extract_text`. -/
def punctuationChars : List Char := ['.', ',', '!', '?', ';', ':']

/-- Model of `text.startswith(('.', ',', '!', '?', ';', ':'))`. -/
def startsWithPunct : List Char → Bool
  | [] => false
  | c :: _ => punctuationChars.contains c

/-- A transcription segment as consumed by `_extract_text`: the `"text"` key
may be absent (`none`) and, when present, may be the empty (falsy) string. -/
structure Segment where
  text : Option (List Char)
deriving DecidableEq

/-- The loop body of `WhisperXService._extract_text`: `acc` is the running
`full_text`; each segment with a present, truthy `"text"` value is stripped
and, when non-empty, appended, preceded by a single space when `full_text`
is non-empty and the stripped text does not start with punctuation. -/
def extractLoop : List Segment → List Char → List Char
  | [], acc => acc
  | seg :: rest, acc =>
    match seg.text with
    | none => extractLoop rest acc
    | some raw =>
      if raw = [] then extractLoop rest acc
      else
        let text := stripChars raw
        if text = [] then extractLoop rest acc
        else if acc ≠ [] && !startsWithPunct text then
          extractLoop rest (acc ++ [' '] ++ text)
        else
          extractLoop rest (acc ++ text)

/-- `WhisperXService._extract_text`: run the loop from the empty `full_text`
and strip the final string. -/
def _extract_text (segments : List Segment) : List Char :=
  stripChars (extractLoop segments [])

/-- The list of contributing texts: for each segment whose `"text"` key is
present and truthy, its stripped text, kept only when non-empty. -/
def cleanTexts (segments : List Segment) : List (List Char) :=
  segments.filterMap fun seg =>
    match seg.text with
    | none => none
    | some raw =>
      if raw = [] then none
      else
        let t := stripChars raw
        if t = [] then none else some t

/-- Spec-side joiner for all contributions after the first: each text is
preceded by a single space unless it starts with a punctuation character. -/
def joinRest : List (List Char) → List Char
  | [] => []
  | t :: rest => (if startsWithPunct t then [] else [' ']) ++ t ++ joinRest rest

/-- Spec-side joiner: first contribution verbatim, the rest via `joinRest`. -/
def joinSegments : List (List Char) → List Char
  | [] => []
  | t :: rest => t ++ joinRest rest

/-- The spec's `assemble(segments)` (§4.5): concatenate non-empty trimmed
segment texts with punctuation-aware single-space separators, then trim the
final string. Stated separately from `_extract_text` so that the two can be
proved equal. -/
def assembleSpec (segments : List Segment) : List Char :=
  stripChars (joinSegments (cleanTexts segments))

/-- `true` iff the string contains two consecutive space characters. -/
def hasDoubleSpace : List Char → Bool
  | a :: b :: t => (a = ' ' && b = ' ') || hasDoubleSpace (b :: t)
  | _ => false

/-- The compute devices the service can select: `"cuda"` (primary
accelerator), `"mps"` (secondary accelerator), `"cpu"`. -/
inductive Device
  | cuda
  | mps
  | cpu
deriving DecidableEq

/-- A Python exception, as distinguished by the service's handlers:
`ImportError` versus any other `Exception`. -/
inductive PyExc
  | importError (msg : String)
  | exc (msg : String)
deriving DecidableEq

/-- The opaque object returned by `whisperx.load_model(model_size, device)`;
it records the arguments of the call that produced it. -/
structure ModelHandle where
  size : String
  dev : Device
deriving DecidableEq

/-- The opaque alignment model returned by `whisperx.load_align_model`;
it records the device of the call that produced it. -/
structure AlignHandle where
  dev : Device
deriving DecidableEq

/-- The dictionary returned by `model.transcribe` / `whisperx.align`:
a segment list and an optional `"language"` key. -/
structure TranscribeOut where
  segments : List Segment
  language : Option String
deriving DecidableEq

/-- The external capabilities of the service, as one record: the torch and
whisperx libraries, the accelerator runtime, the filesystem. A fallible call
is an `Except PyExc` value: `Except.error e` models the call raising `e`. -/
structure Env where
  /-- `import torch` succeeds (used by `_setup_device` and `cleanup_models`). -/
  torchAvailable : Bool
  /-- `torch.cuda.is_available()`. -/
  cudaAvailable : Bool
  /-- `hasattr(torch.backends, 'mps')`. -/
  mpsHasAttr : Bool
  /-- `torch.backends.mps.is_available()`. -/
  mpsAvailable : Bool
  /-- `import whisperx` (in `load_model` and in `transcribe_audio`). -/
  whisperxImport : Except PyExc Unit
  /-- `whisperx.load_model(model_size, device)`. -/
  loadModelResult : String → Device → Except PyExc ModelHandle
  /-- `whisperx.load_align_model(language_code="en", device=...)`. -/
  loadAlignResult : Device → Except PyExc (AlignHandle × Unit)
  /-- `whisperx.load_audio(path)`: `none` models a `None` result, `some n`
  an array of `n` samples. -/
  loadAudio : String → Except PyExc (Option Nat)
  /-- `torch.cuda.get_device_properties(0).total_memory`, in bytes; an
  `Except.error` models any failure of the import or the read. -/
  memRead : Except PyExc Nat
  /-- `self.model.transcribe(audio, batch_size=...)`. -/
  runTranscribe : ModelHandle → Nat → Except PyExc TranscribeOut
  /-- `whisperx.align(segments, align_model, metadata, audio, device, ...)`. -/
  alignCall : List Segment → AlignHandle → Device → Except PyExc TranscribeOut
  /-- `getattr(self.model, 'model_size', 'unknown')`: `none` when the
  attribute is absent. -/
  modelSizeAttr : ModelHandle → Option String
  /-- The filesystem: `none` when `os.path.exists` is false, `some n` when
  the file exists with `os.path.getsize` = `n` bytes. -/
  fs : String → Option Nat
  /-- `import gc; gc.collect()`. -/
  gcCollect : Except PyExc Unit
  /-- `torch.cuda.empty_cache()`. -/
  cudaEmptyCache : Except PyExc Unit
  /-- `torch.cuda.synchronize()`. -/
  cudaSync : Except PyExc Unit
  /-- `hasattr(torch.mps, 'empty_cache')`. -/
  mpsHasEmptyCache : Bool
  /-- `torch.mps.empty_cache()`. -/
  mpsEmptyCache : Except PyExc Unit

/-- The mutable fields of a `WhisperXService` instance. -/
structure ServiceState where
  model : Option ModelHandle
  align_model : Option AlignHandle
  metadata : Option Unit
  device : Device
deriving DecidableEq

/-- An external call issued by an operation, recorded in its trace. -/
inductive CallEv
  | loadModelC (size : String) (dev : Device)
  | loadAlignC (dev : Device)
  | loadAudioC (path : String)
  | transcribeC (batch : Nat)
  | alignC (dev : Device)
deriving DecidableEq

/-- `WhisperXService._setup_device`: cuda if available, else mps if the
backend attribute exists and reports available, else cpu; `ImportError`
on `import torch` also falls back to cpu. -/
def _setup_device (env : Env) : Device :=
  if env.torchAvailable then
    if env.cudaAvailable then Device.cuda
    else if env.mpsHasAttr && env.mpsAvailable then Device.mps
    else Device.cpu
  else Device.cpu

/-- `WhisperXService.__init__`: all handles null, device selected once by
`_setup_device`. -/
def initService (env : Env) : ServiceState :=
  { model := none, align_model := none, metadata := none,
    device := _setup_device env }

/-- `WhisperXService.load_model(model_size)`: returns the boolean result,
the updated state, and the trace of external calls. On `"mps"` the local
`device_to_use` is downgraded to `"cpu"` before both loads. A main-model
load failure is caught by the outer handler and returns `False` with the
state unchanged; an alignment load failure is caught by the inner handler,
nulls the alignment fields and still returns `True`. -/
def load_model (env : Env) (st : ServiceState) (model_size : String) :
    Bool × ServiceState × List CallEv :=
  match env.whisperxImport with
  | Except.error _ => (false, st, [])
  | Except.ok _ =>
    let device_to_use := if st.device = Device.mps then Device.cpu else st.device
    match env.loadModelResult model_size device_to_use with
    | Except.error _ => (false, st, [CallEv.loadModelC model_size device_to_use])
    | Except.ok m =>
      match env.loadAlignResult device_to_use with
      | Except.error _ =>
        (true, { st with model := some m, align_model := none, metadata := none },
          [CallEv.loadModelC model_size device_to_use, CallEv.loadAlignC device_to_use])
      | Except.ok am =>
        (true, { st with model := some m, align_model := some am.1, metadata := some am.2 },
          [CallEv.loadModelC model_size device_to_use, CallEv.loadAlignC device_to_use])

/-- A transcription result dictionary: only the keys actually present in the
returned Python dict are `some`. -/
structure TResult where
  success : Bool
  error : Option String := none
  text : Option (List Char) := none
  segments : Option Nat := none
  language : Option String := none
  model_size : Option String := none
  device : Option Device := none
deriving DecidableEq

/-- The `except ImportError` / `except Exception` handlers at the end of
`transcribe_audio`. -/
def excResult : PyExc → TResult
  | PyExc.importError _ =>
    { success := false, error := some "WhisperX not properly installed" }
  | PyExc.exc m =>
    { success := false, error := some ("Transcription failed: " ++ m) }

/-- `WhisperXService._get_optimal_batch_size`: on `"cuda"` read the device's
total memory in bytes and threshold at 8 GB / 4 GB (decimal), returning 16
if the read raises; 8 on `"mps"`; 4 on `"cpu"`. -/
def _get_optimal_batch_size (device : Device) (memRead : Except PyExc Nat) : Nat :=
  match device with
  | Device.cuda =>
    match memRead with
    | Except.ok mem =>
      if mem > 8 * 1000000000 then 32
      else if mem > 4 * 1000000000 then 16
      else 8
    | Except.error _ => 16
  | Device.mps => 8
  | Device.cpu => 4

/-- The part of `transcribe_audio` after the model-readiness step: import
whisperx, decode audio, compute the batch size, run inference, optionally
align, assemble the text and build the success record. `tr` is the trace
accumulated so far. The state is never modified here. -/
def transcribeLoaded (env : Env) (st : ServiceState) (path : String)
    (tr : List CallEv) : TResult × ServiceState × List CallEv :=
  match env.whisperxImport with
  | Except.error e => (excResult e, st, tr)
  | Except.ok _ =>
    match env.loadAudio path with
    | Except.error e => (excResult e, st, tr ++ [CallEv.loadAudioC path])
    | Except.ok audio =>
      match audio with
      | none =>
        ({ success := false, error := some "Could not load audio data" },
          st, tr ++ [CallEv.loadAudioC path])
      | some nSamples =>
        if nSamples = 0 then
          ({ success := false, error := some "Could not load audio data" },
            st, tr ++ [CallEv.loadAudioC path])
        else
          match st.model with
          | none =>
            ({ success := false,
               error := some
                 "Transcription failed: 'NoneType' object has no attribute 'transcribe'" },
              st, tr ++ [CallEv.loadAudioC path])
          | some m =>
            match env.runTranscribe m (_get_optimal_batch_size st.device env.memRead) with
            | Except.error e =>
              (excResult e, st,
                tr ++ [CallEv.loadAudioC path,
                  CallEv.transcribeC (_get_optimal_batch_size st.device env.memRead)])
            | Except.ok res0 =>
              let tr2 := tr ++ [CallEv.loadAudioC path,
                CallEv.transcribeC (_get_optimal_batch_size st.device env.memRead)]
              if res0.segments = [] then
                ({ success := false, error := some "No speech detected in audio" },
                  st, tr2)
              else
                match st.align_model, st.metadata with
                | some am, some _ =>
                  match env.alignCall res0.segments am st.device with
                  | Except.ok ares =>
                    ({ success := true,
                       text := some (_extract_text ares.segments),
                       segments := some ares.segments.length,
                       language := some (ares.language.getD "en"),
                       model_size := some ((env.modelSizeAttr m).getD "unknown"),
                       device := some st.device },
                      st, tr2 ++ [CallEv.alignC st.device])
                  | Except.error _ =>
                    ({ success := true,
                       text := some (_extract_text res0.segments),
                       segments := some res0.segments.length,
                       language := some (res0.language.getD "en"),
                       model_size := some ((env.modelSizeAttr m).getD "unknown"),
                       device := some st.device },
                      st, tr2 ++ [CallEv.alignC st.device])
                | _, _ =>
                  ({ success := true,
                     text := some (_extract_text res0.segments),
                     segments := some res0.segments.length,
                     language := some (res0.language.getD "en"),
                     model_size := some ((env.modelSizeAttr m).getD "unknown"),
                     device := some st.device },
                    st, tr2)

/-- `WhisperXService.transcribe_audio(audio_file_path)`: validate the path
(existence, non-zero size), ensure a model is loaded (loading `"base"` if
not), then run the loaded-model pipeline. -/
def transcribe_audio (env : Env) (st : ServiceState) (path : String) :
    TResult × ServiceState × List CallEv :=
  match env.fs path with
  | none =>
    ({ success := false, error := some ("Audio file not found: " ++ path) }, st, [])
  | some fsize =>
    if fsize = 0 then
      ({ success := false, error := some "Audio file is empty" }, st, [])
    else
      match st.model with
      | some _ => transcribeLoaded env st path []
      | none =>
        match load_model env st "base" with
        | (false, st1, tr1) =>
          ({ success := false, error := some "Failed to load WhisperX model" },
            st1, tr1)
        | (true, st1, tr1) => transcribeLoaded env st1 path tr1

/-- The body of `cleanup_models` inside its `try`: `import torch`, null the
three handle fields, `gc.collect()`, then the device-conditional cache
clears. `Except.error (e, st)` models the body raising `e` with the fields
in state `st` at that point. -/
def cleanup_body (env : Env) (st : ServiceState) :
    Except (PyExc × ServiceState) ServiceState :=
  if env.torchAvailable then
    let st1 : ServiceState :=
      { st with model := none, align_model := none, metadata := none }
    match env.gcCollect with
    | Except.error e => Except.error (e, st1)
    | Except.ok _ =>
      if st1.device = Device.cuda && env.cudaAvailable then
        match env.cudaEmptyCache with
        | Except.error e => Except.error (e, st1)
        | Except.ok _ =>
          match env.cudaSync with
          | Except.error e => Except.error (e, st1)
          | Except.ok _ => Except.ok st1
      else if st1.device = Device.mps && (env.mpsHasAttr && env.mpsAvailable) then
        if env.mpsHasEmptyCache then
          match env.mpsEmptyCache with
          | Except.error e => Except.error (e, st1)
          | Except.ok _ => Except.ok st1
        else Except.ok st1
      else Except.ok st1
  else
    Except.error (PyExc.importError "No module named 'torch'", st)

/-- `WhisperXService.cleanup_models`: the body wrapped in
`except Exception: logger.warning(...)` — any raise is absorbed and the
state as of the raise is kept. -/
def cleanup_models (env : Env) (st : ServiceState) : ServiceState :=
  match cleanup_body env st with
  | Except.ok st1 => st1
  | Except.error (_, st1) => st1

/-- A concrete environment in which every capability is present and
succeeds: torch importable, no cuda, mps present, whisperx importable,
loads succeed (handles record their arguments), audio decodes to 16000
samples, inference yields one segment `"Hello"`, alignment echoes its
segments, every file exists with 1024 bytes. -/
def baseEnv : Env :=
  { torchAvailable := true
    cudaAvailable := false
    mpsHasAttr := true
    mpsAvailable := true
    whisperxImport := Except.ok ()
    loadModelResult := fun s d => Except.ok { size := s, dev := d }
    loadAlignResult := fun d => Except.ok ({ dev := d }, ())
    loadAudio := fun _ => Except.ok (some 16000)
    memRead := Except.ok (10 * 1000000000)
    runTranscribe := fun _ _ =>
      Except.ok { segments := [{ text := some "Hello".toList }], language := some "en" }
    alignCall := fun segs _ _ => Except.ok { segments := segs, language := none }
    modelSizeAttr := fun m => some m.size
    fs := fun _ => some 1024
    gcCollect := Except.ok ()
    cudaEmptyCache := Except.ok ()
    cudaSync := Except.ok ()
    mpsHasEmptyCache := true
    mpsEmptyCache := Except.ok () }

/-- An empty (freshly constructed) service state on cpu. -/
def emptyCpuState : ServiceState :=
  { model := none, align_model := none, metadata := none, device := Device.cpu }

/-- A ready state on cpu: `"base"` model loaded, no alignment. -/
def readyCpuState : ServiceState :=
  { model := some { size := "base", dev := Device.cpu },
    align_model := none, metadata := none, device := Device.cpu }

/-- An empty service state whose selected device is mps. -/
def emptyMpsState : ServiceState :=
  { model := none, align_model := none, metadata := none, device := Device.mps }

/-- A ready state on cpu with the alignment handle and metadata present. -/
def readyAlignedState : ServiceState :=
  { model := some { size := "base", dev := Device.cpu },
    align_model := some { dev := Device.cpu }, metadata := some (),
    device := Device.cpu }

/-- Running the extraction loop from a non-empty `full_text` appends the
joined remaining contributions. -/
theorem extractLoop_append (segs : List Segment) :
    ∀ acc : List Char, acc ≠ [] →
      extractLoop segs acc = acc ++ joinRest (cleanTexts segs) := by
  induction segs with
  | nil => intro acc _; simp [extractLoop, cleanTexts, joinRest]
  | cons seg rest ih =>
    intro acc hacc
    cases hseg : seg.text with
    | none =>
      simp [extractLoop, hseg, cleanTexts, List.filterMap_cons, ih acc hacc]
    | some raw =>
      by_cases hraw : raw = []
      · simp [extractLoop, hseg, hraw, cleanTexts, List.filterMap_cons, ih acc hacc]
      · by_cases ht : stripChars raw = []
        · simp [extractLoop, hseg, hraw, ht, cleanTexts, List.filterMap_cons, ih acc hacc]
        · by_cases hp : startsWithPunct (stripChars raw) = true
          · have hacc2 : acc ++ stripChars raw ≠ [] := by
              simp [hacc]
            simp [extractLoop, hseg, hraw, ht, hp, cleanTexts, List.filterMap_cons,
              joinRest, ih _ hacc2]
          · have hacc2 : acc ++ ' ' :: stripChars raw ≠ [] := by
              simp [hacc]
            simp [extractLoop, hseg, hraw, ht, hp, hacc, cleanTexts,
              List.filterMap_cons, joinRest, ih _ hacc2]

/-- Running the extraction loop from the empty `full_text` produces the
spec-side join of the contributions. -/
theorem extractLoop_nil (segs : List Segment) :
    extractLoop segs [] = joinSegments (cleanTexts segs) := by
  induction segs with
  | nil => simp [extractLoop, cleanTexts, joinSegments]
  | cons seg rest ih =>
    cases hseg : seg.text with
    | none => simp [extractLoop, hseg, cleanTexts, List.filterMap_cons, ih]
    | some raw =>
      by_cases hraw : raw = []
      · simp [extractLoop, hseg, hraw, cleanTexts, List.filterMap_cons, ih]
      · by_cases ht : stripChars raw = []
        · simp [extractLoop, hseg, hraw, ht, cleanTexts, List.filterMap_cons, ih]
        · have hstep := extractLoop_append rest (stripChars raw) ht
          simp [extractLoop, hseg, hraw, ht, cleanTexts, List.filterMap_cons,
            joinSegments, hstep]

/-- Unfolding lemma for `rstripChars` on a cons cell. -/
theorem rstrip_cons (c : Char) (t : List Char) :
    rstripChars (c :: t) = match rstripChars t with
      | [] => if isPySpace c then [] else [c]
      | r => c :: r := rfl

/-- The head of a left-stripped string is not whitespace. -/
theorem lstrip_head (l : List Char) :
    (lstripChars l).head?.all fun c => !isPySpace c := by
  induction l with
  | nil => simp [lstripChars]
  | cons c t ih =>
    by_cases h : isPySpace c
    · simpa [lstripChars, List.dropWhile_cons, h] using ih
    · simp [lstripChars, List.dropWhile_cons, h]

/-- Right-stripping either empties the string or keeps its head. -/
theorem rstrip_head (l : List Char) :
    rstripChars l = [] ∨ (rstripChars l).head? = l.head? := by
  induction l with
  | nil => left; rfl
  | cons c t _ =>
    cases h : rstripChars t with
    | nil =>
      by_cases hc : isPySpace c
      · left; simp [rstripChars, h, hc]
      · right; simp [rstripChars, h, hc]
    | cons x xs => right; simp [rstripChars, h]

/-- The last character of a right-stripped string is not whitespace. -/
theorem rstrip_last (l : List Char) :
    (rstripChars l).getLast?.all fun c => !isPySpace c := by
  induction l with
  | nil => simp [rstripChars]
  | cons c t ih =>
    cases h : rstripChars t with
    | nil =>
      by_cases hc : isPySpace c
      · simp [rstripChars, h, hc]
      · simp [rstripChars, h, hc]
    | cons x xs =>
      rw [h] at ih
      have hstep : rstripChars (c :: t) = c :: x :: xs := by simp [rstripChars, h]
      rw [hstep, List.getLast?_cons_cons]
      simpa using ih

/-- The head of a stripped string is not whitespace. -/
theorem strip_head (l : List Char) :
    (stripChars l).head?.all fun c => !isPySpace c := by
  unfold stripChars
  rcases rstrip_head (lstripChars l) with h | h
  · simp [h]
  · rw [h]; exact lstrip_head l

/-- The last character of a stripped string is not whitespace. -/
theorem strip_last (l : List Char) :
    (stripChars l).getLast?.all fun c => !isPySpace c :=
  rstrip_last (lstripChars l)

/-- Left-stripping a string whose head is not whitespace is the identity. -/
theorem lstrip_eq_self (l : List Char)
    (h : l.head?.all fun c => !isPySpace c) : lstripChars l = l := by
  cases l with
  | nil => rfl
  | cons c t =>
    have h' : isPySpace c = false := by simpa using h
    simp [lstripChars, List.dropWhile_cons, h']

/-- Right-stripping a string whose last character is not whitespace is the
identity. -/
theorem rstrip_eq_self (l : List Char)
    (h : l.getLast?.all fun c => !isPySpace c) : rstripChars l = l := by
  induction l with
  | nil => rfl
  | cons c t ih =>
    cases t with
    | nil =>
      have h' : isPySpace c = false := by simpa using h
      simp [rstripChars, h']
    | cons d u =>
      rw [List.getLast?_cons_cons] at h
      have ht : rstripChars (d :: u) = d :: u := ih h
      rw [rstrip_cons, ht]

/-- Stripping a string with non-whitespace head and last character is the
identity. -/
theorem strip_eq_self (l : List Char)
    (h1 : l.head?.all fun c => !isPySpace c)
    (h2 : l.getLast?.all fun c => !isPySpace c) : stripChars l = l := by
  unfold stripChars
  rw [lstrip_eq_self l h1, rstrip_eq_self l h2]

/-- Every contribution selected by `cleanTexts` is non-empty with
non-whitespace head and last character. -/
theorem cleanTexts_mem {t : List Char} {segs : List Segment}
    (h : t ∈ cleanTexts segs) :
    t ≠ [] ∧ (t.head?.all fun c => !isPySpace c) ∧
      (t.getLast?.all fun c => !isPySpace c) := by
  rw [cleanTexts, List.mem_filterMap] at h
  obtain ⟨seg, _, hf⟩ := h
  cases hseg : seg.text with
  | none => rw [hseg] at hf; simp at hf
  | some raw =>
    rw [hseg] at hf
    by_cases hraw : raw = []
    · simp [hraw] at hf
    · by_cases ht : stripChars raw = []
      · simp [hraw, ht] at hf
      · simp only [hraw, ht, if_false, if_neg, Option.some_inj] at hf
        subst hf
        exact ⟨ht, strip_head raw, strip_last raw⟩

/-- Unfolding `hasDoubleSpace` at a cons cell via the head of the tail. -/
theorem hasDoubleSpace_cons (a : Char) (l : List Char) :
    hasDoubleSpace (a :: l) =
      ((l.head?.any fun b => a = ' ' && b = ' ') || hasDoubleSpace l) := by
  cases l with
  | nil => simp [hasDoubleSpace]
  | cons b u => simp [hasDoubleSpace]

/-- Concatenation introduces no double space when neither part has one and
the boundary does not put two spaces together. -/
theorem hasDoubleSpace_append (y : List Char) (hy : hasDoubleSpace y = false) :
    ∀ x : List Char, hasDoubleSpace x = false →
      ¬(x.getLast? = some ' ' ∧ y.head? = some ' ') →
      hasDoubleSpace (x ++ y) = false := by
  intro x
  induction x with
  | nil => intro _ _; simpa using hy
  | cons a t ih =>
    intro hx hj
    rw [List.cons_append, hasDoubleSpace_cons]
    rw [hasDoubleSpace_cons] at hx
    have hx1 : (t.head?.any fun b => a = ' ' && b = ' ') = false :=
      (Bool.or_eq_false_iff.mp hx).1
    have hx2 : hasDoubleSpace t = false := (Bool.or_eq_false_iff.mp hx).2
    have hj' : ¬(t.getLast? = some ' ' ∧ y.head? = some ' ') := by
      cases t with
      | nil => simp
      | cons b u =>
        intro hcon
        exact hj ⟨by rw [List.getLast?_cons_cons]; exact hcon.1, hcon.2⟩
    have htail : hasDoubleSpace (t ++ y) = false := ih hx2 hj'
    rw [htail, Bool.or_false]
    cases t with
    | cons b u => simpa using hx1
    | nil =>
      simp only [List.nil_append]
      cases hyh : y.head? with
      | none => simp
      | some b =>
        simp only [Option.any_some]
        by_cases ha : a = ' '
        · by_cases hb : b = ' '
          · exact absurd ⟨by simp [ha], by rw [hyh, hb]⟩ hj
          · simp [hb]
        · simp [ha]

/-- A clean contribution: non-empty, non-whitespace ends, no double space. -/
def cleanText (t : List Char) : Prop :=
  t ≠ [] ∧ (t.head?.all fun c => !isPySpace c) ∧
    (t.getLast?.all fun c => !isPySpace c) ∧ hasDoubleSpace t = false

/-- A string whose last character is not whitespace does not end in `' '`. -/
theorem nonspace_last_ne {t : List Char}
    (h : (t.getLast?.all fun c => !isPySpace c) = true) :
    t.getLast? ≠ some ' ' := by
  intro hc
  rw [hc] at h
  exact absurd h (by decide)

/-- The last character of an append with clean parts is not whitespace. -/
theorem getLast?_append_clean {t s : List Char}
    (hlast : (t.getLast?.all fun c => !isPySpace c))
    (hs : (s.getLast?.all fun c => !isPySpace c)) :
    ((t ++ s).getLast?.all fun c => !isPySpace c) := by
  by_cases hsn : s = []
  · subst hsn; simpa using hlast
  · rw [List.getLast?_append_of_ne_nil _ hsn]; exact hs

/-- The tail-joiner of clean contributions has no double space and a
non-whitespace last character. -/
theorem joinRest_clean : ∀ ts : List (List Char),
    (∀ t ∈ ts, cleanText t) →
    hasDoubleSpace (joinRest ts) = false ∧
      ((joinRest ts).getLast?.all fun c => !isPySpace c) := by
  intro ts
  induction ts with
  | nil => intro _; simp [joinRest, hasDoubleSpace]
  | cons t rest ih =>
    intro h
    obtain ⟨hne, hhead, hlast, hds⟩ := h t (List.mem_cons_self t rest)
    have hrest := ih fun u hu => h u (List.mem_cons_of_mem t hu)
    have hjoint : ¬(t.getLast? = some ' ' ∧ (joinRest rest).head? = some ' ') :=
      fun hc => nonspace_last_ne hlast hc.1
    have hts : hasDoubleSpace (t ++ joinRest rest) = false :=
      hasDoubleSpace_append (joinRest rest) hrest.1 t hds hjoint
    have hlast2 : ((t ++ joinRest rest).getLast?.all fun c => !isPySpace c) :=
      getLast?_append_clean hlast hrest.2
    by_cases hp : startsWithPunct t = true
    · constructor
      · simpa [joinRest, hp] using hts
      · simpa [joinRest, hp] using hlast2
    · have hheadc : ((t ++ joinRest rest).head?.any fun b =>
          (' ' = ' ' && b = ' ' : Bool)) = false := by
        rw [List.head?_append_of_ne_nil _ hne]
        cases hh : t.head? with
        | none => simp
        | some c =>
          rw [hh] at hhead
          have hcne : c ≠ ' ' := by
            intro hc; rw [hc] at hhead; exact absurd hhead (by decide)
          simp [hcne]
      constructor
      · have hform : joinRest (t :: rest) = ' ' :: (t ++ joinRest rest) := by
          simp [joinRest, hp]
        rw [hform, hasDoubleSpace_cons, hheadc, hts]
        simp
      · have hform : joinRest (t :: rest) = [' '] ++ (t ++ joinRest rest) := by
          simp [joinRest, hp]
        rw [hform]
        have hne2 : t ++ joinRest rest ≠ [] := by simp [hne]
        rw [List.getLast?_append_of_ne_nil _ hne2]
        exact hlast2

/-- The full joiner of clean contributions has no double space and
non-whitespace head and last characters. -/
theorem joinSegments_clean (ts : List (List Char))
    (h : ∀ t ∈ ts, cleanText t) :
    hasDoubleSpace (joinSegments ts) = false ∧
      ((joinSegments ts).head?.all fun c => !isPySpace c) ∧
      ((joinSegments ts).getLast?.all fun c => !isPySpace c) := by
  cases ts with
  | nil => simp [joinSegments, hasDoubleSpace]
  | cons t rest =>
    obtain ⟨hne, hhead, hlast, hds⟩ := h t (List.mem_cons_self t rest)
    have hrest := joinRest_clean rest fun u hu => h u (List.mem_cons_of_mem t hu)
    have hjoint : ¬(t.getLast? = some ' ' ∧ (joinRest rest).head? = some ' ') :=
      fun hc => nonspace_last_ne hlast hc.1
    refine ⟨hasDoubleSpace_append (joinRest rest) hrest.1 t hds hjoint, ?_, ?_⟩
    · show ((t ++ joinRest rest).head?.all fun c => !isPySpace c)
      rw [List.head?_append_of_ne_nil _ hne]
      exact hhead
    · exact getLast?_append_clean hlast hrest.2

/-- C5: for every segment list, `_extract_text` equals the spec's assembler
(non-empty trimmed texts joined by exactly one space, omitted when the next
text starts with one of `. , ! ? ; :`); the result has no leading or
trailing whitespace; no two contributions are joined with two spaces (the
output has no double space whenever no single contribution contains one);
and assembling `"Hello"` followed by `", world"` yields exactly
`"Hello, world"`. -/
theorem extract_text_meets_assemble_spec (segs : List Segment) :
    _extract_text segs = assembleSpec segs ∧
    ((_extract_text segs).head?.all fun c => !isPySpace c) ∧
    ((_extract_text segs).getLast?.all fun c => !isPySpace c) ∧
    ((∀ t ∈ cleanTexts segs, hasDoubleSpace t = false) →
      hasDoubleSpace (_extract_text segs) = false) ∧
    _extract_text [{ text := some "Hello".toList }, { text := some ", world".toList }]
      = "Hello, world".toList := by
  refine ⟨?_, strip_head _, strip_last _, ?_, by decide⟩
  · unfold _extract_text assembleSpec
    rw [extractLoop_nil]
  · intro hds
    have hclean : ∀ t ∈ cleanTexts segs, cleanText t := by
      intro t ht
      obtain ⟨h1, h2, h3⟩ := cleanTexts_mem ht
      exact ⟨h1, h2, h3, hds t ht⟩
    have hj := joinSegments_clean (cleanTexts segs) hclean
    have heq : _extract_text segs = joinSegments (cleanTexts segs) := by
      unfold _extract_text
      rw [extractLoop_nil]
      exact strip_eq_self _ hj.2.1 hj.2.2
    rw [heq]
    exact hj.1

/-- Witness for C5 at a concrete segment list: the double-space-freedom
hypothesis holds for the `"Hello"` / `", world"` example and so does the
conclusion. -/
theorem extract_text_meets_assemble_spec_witness :
    hasDoubleSpace (_extract_text
      [{ text := some "Hello".toList }, { text := some ", world".toList }]) = false :=
  (extract_text_meets_assemble_spec
    [{ text := some "Hello".toList }, { text := some ", world".toList }]).2.2.2.1
    (by decide)

/-- C3 counterexample: on the primary accelerator with an unreadable memory
value, `_get_optimal_batch_size` returns 16, not the claimed 8. -/
theorem batch_size_unreadable_counterexample :
    _get_optimal_batch_size Device.cuda (Except.error (PyExc.exc "unreadable")) = 16 ∧
    _get_optimal_batch_size Device.cuda (Except.error (PyExc.exc "unreadable")) ≠ 8 := by
  constructor
  · rfl
  · decide

/-- C3 (amended): `_get_optimal_batch_size` returns 32 on the primary
accelerator with more than 8 GB reported, 16 with more than 4 GB and at
most 8 GB, 8 with at most 4 GB, and 16 when the memory read fails; 8 on the
secondary accelerator and 4 on CPU regardless of the memory value. -/
theorem batch_size_table (mem : Nat) (e : PyExc) (r : Except PyExc Nat) :
    (mem > 8 * 1000000000 →
      _get_optimal_batch_size Device.cuda (Except.ok mem) = 32) ∧
    (mem > 4 * 1000000000 → mem ≤ 8 * 1000000000 →
      _get_optimal_batch_size Device.cuda (Except.ok mem) = 16) ∧
    (mem ≤ 4 * 1000000000 →
      _get_optimal_batch_size Device.cuda (Except.ok mem) = 8) ∧
    _get_optimal_batch_size Device.cuda (Except.error e) = 16 ∧
    _get_optimal_batch_size Device.mps r = 8 ∧
    _get_optimal_batch_size Device.cpu r = 4 := by
  refine ⟨?_, ?_, ?_, rfl, rfl, rfl⟩
  · intro h
    simp [_get_optimal_batch_size, h]
  · intro h1 h2
    have hn : ¬(mem > 8 * 1000000000) := by omega
    simp [_get_optimal_batch_size, hn, h1]
  · intro h
    have hn1 : ¬(mem > 8 * 1000000000) := by omega
    have hn2 : ¬(mem > 4 * 1000000000) := by omega
    simp [_get_optimal_batch_size, hn1, hn2]

/-- Witness for C3 at concrete inputs: 10 GB gives 32, 6 GB gives 16,
2 GB gives 8, a failing read gives 16, mps gives 8, cpu gives 4. -/
theorem batch_size_table_witness :
    _get_optimal_batch_size Device.cuda (Except.ok 10000000000) = 32 ∧
    _get_optimal_batch_size Device.cuda (Except.ok 6000000000) = 16 ∧
    _get_optimal_batch_size Device.cuda (Except.ok 2000000000) = 8 ∧
    _get_optimal_batch_size Device.cuda (Except.error (PyExc.exc "oom")) = 16 ∧
    _get_optimal_batch_size Device.mps (Except.ok 0) = 8 ∧
    _get_optimal_batch_size Device.cpu (Except.ok 0) = 4 := by
  have h := batch_size_table 10000000000 (PyExc.exc "oom") (Except.ok 0)
  have h6 := batch_size_table 6000000000 (PyExc.exc "oom") (Except.ok 0)
  have h2 := batch_size_table 2000000000 (PyExc.exc "oom") (Except.ok 0)
  exact ⟨h.1 (by decide), h6.2.1 (by decide) (by decide), h2.2.2.1 (by decide),
    h.2.2.2.1, h.2.2.2.2.1, h.2.2.2.2.2⟩

/-- `cleanup_models` characterized: when `import torch` succeeds the three
handle fields are nulled whatever else fails; when it raises, the handler
absorbs the error and the state is untouched. -/
theorem cleanup_models_char (env : Env) (st : ServiceState) :
    cleanup_models env st =
      if env.torchAvailable then
        { st with model := none, align_model := none, metadata := none }
      else st := by
  cases henv : env.torchAvailable with
  | false => simp [cleanup_models, cleanup_body, henv]
  | true =>
    cases hg : env.gcCollect with
    | error e => simp [cleanup_models, cleanup_body, henv, hg]
    | ok u =>
      cases hd : st.device <;>
      cases hca : env.cudaAvailable <;>
      cases hma : env.mpsHasAttr <;>
      cases hmv : env.mpsAvailable <;>
      cases hmh : env.mpsHasEmptyCache <;>
      rcases hc : env.cudaEmptyCache with e1 | u1 <;>
      rcases hs : env.cudaSync with e2 | u2 <;>
      rcases hm : env.mpsEmptyCache with e3 | u3 <;>
      simp [cleanup_models, cleanup_body, henv, hg, hd, hca, hma, hmv, hmh,
        hc, hs, hm]

/-- C1 counterexample: from a READY state, when the first cleanup step
(`import torch`) fails, `cleanup_models` clears nothing — the main model
handle is still present, and remains present after a second call — so the
claimed "ends in EMPTY even if an intermediate cleanup step fails" is
false. -/
theorem cleanup_not_empty_counterexample :
    (cleanup_models { baseEnv with torchAvailable := false } readyCpuState).model
      = some { size := "base", dev := Device.cpu } ∧
    (cleanup_models { baseEnv with torchAvailable := false }
        (cleanup_models { baseEnv with torchAvailable := false }
          readyCpuState)).model ≠ none := by
  constructor
  · rfl
  · decide

/-- C1 (amended): `cleanup_models` never lets an error escape (a raise in
the body is absorbed, keeping the state at the raise point), is idempotent
on the state, and — provided the torch import succeeds — ends with all
three handles null regardless of any later step failing; if the
torch import fails, the state is left unchanged (handles not cleared). -/
theorem cleanup_release_guarantee (env : Env) (st : ServiceState) :
    cleanup_models env (cleanup_models env st) = cleanup_models env st ∧
    (∀ e st1, cleanup_body env st = Except.error (e, st1) →
      cleanup_models env st = st1) ∧
    (env.torchAvailable = true →
      (cleanup_models env st).model = none ∧
      (cleanup_models env st).align_model = none ∧
      (cleanup_models env st).metadata = none) ∧
    (env.torchAvailable = false → cleanup_models env st = st) := by
  refine ⟨?_, ?_, ?_, ?_⟩
  · rw [cleanup_models_char, cleanup_models_char]
    cases henv : env.torchAvailable <;> simp [henv]
  · intro e st1 h
    simp [cleanup_models, h]
  · intro h
    rw [cleanup_models_char]
    simp [h]
  · intro h
    rw [cleanup_models_char]
    simp [h]

/-- Witness for C1 at a concrete environment and state: with torch present,
cleanup from the aligned READY state nulls all three handles. -/
theorem cleanup_release_guarantee_witness :
    (cleanup_models baseEnv readyAlignedState).model = none ∧
    (cleanup_models baseEnv readyAlignedState).align_model = none ∧
    (cleanup_models baseEnv readyAlignedState).metadata = none :=
  (cleanup_release_guarantee baseEnv readyAlignedState).2.2.1 rfl

/-- Both handlers produce a failure record with no device field. -/
theorem excResult_device (e : PyExc) : (excResult e).device = none := by
  cases e <;> rfl

/-- Both handlers produce a record with `success = false`. -/
theorem excResult_success (e : PyExc) : (excResult e).success = false := by
  cases e <;> rfl

/-- Both handlers produce a record carrying an error message. -/
theorem excResult_error (e : PyExc) : ∃ msg, (excResult e).error = some msg := by
  cases e with
  | importError m => exact ⟨"WhisperX not properly installed", rfl⟩
  | exc m => exact ⟨"Transcription failed: " ++ m, rfl⟩

/-- `load_model` never changes the recorded device. -/
theorem load_model_device (env : Env) (st : ServiceState) (s : String) :
    (load_model env st s).2.1.device = st.device := by
  cases hw : env.whisperxImport with
  | error e => simp [load_model, hw]
  | ok u =>
    cases hm : env.loadModelResult s
        (if st.device = Device.mps then Device.cpu else st.device) with
    | error e => simp [load_model, hw, hm]
    | ok m =>
      cases ha : env.loadAlignResult
          (if st.device = Device.mps then Device.cpu else st.device) with
      | error e => simp [load_model, hw, hm, ha]
      | ok am => simp [load_model, hw, hm, ha]

/-- Every external call issued by `load_model` is a main-model load or an
alignment load, both on the local (possibly downgraded) device. -/
theorem load_model_trace (env : Env) (st : ServiceState) (s : String) :
    ∀ ev ∈ (load_model env st s).2.2,
      ev = CallEv.loadModelC s
        (if st.device = Device.mps then Device.cpu else st.device) ∨
      ev = CallEv.loadAlignC
        (if st.device = Device.mps then Device.cpu else st.device) := by
  intro ev hev
  cases hw : env.whisperxImport with
  | error e => simp [load_model, hw] at hev
  | ok u =>
    cases hm : env.loadModelResult s
        (if st.device = Device.mps then Device.cpu else st.device) with
    | error e =>
      simp [load_model, hw, hm] at hev
      exact Or.inl hev
    | ok m =>
      cases ha : env.loadAlignResult
          (if st.device = Device.mps then Device.cpu else st.device) with
      | error e =>
        simp [load_model, hw, hm, ha] at hev
        rcases hev with h | h
        · exact Or.inl h
        · exact Or.inr h
      | ok am =>
        simp [load_model, hw, hm, ha] at hev
        rcases hev with h | h
        · exact Or.inl h
        · exact Or.inr h

/-- The loaded-model pipeline never modifies the service state. -/
theorem transcribeLoaded_state (env : Env) (st : ServiceState) (path : String)
    (tr : List CallEv) : (transcribeLoaded env st path tr).2.1 = st := by
  unfold transcribeLoaded
  repeat' split
  all_goals rfl

/-- The loaded-model pipeline reports either no device or the session's. -/
theorem transcribeLoaded_device (env : Env) (st : ServiceState) (path : String)
    (tr : List CallEv) :
    (transcribeLoaded env st path tr).1.device = none ∨
    (transcribeLoaded env st path tr).1.device = some st.device := by
  unfold transcribeLoaded
  repeat' split
  all_goals simp [excResult_device]

/-- `transcribe_audio` never changes the recorded device. -/
theorem transcribe_audio_state_device (env : Env) (st : ServiceState)
    (path : String) : (transcribe_audio env st path).2.1.device = st.device := by
  cases hf : env.fs path with
  | none => simp [transcribe_audio, hf]
  | some n =>
    by_cases hn : n = 0
    · simp [transcribe_audio, hf, hn]
    · cases hm : st.model with
      | some m =>
        simp [transcribe_audio, hf, hn, hm, transcribeLoaded_state]
      | none =>
        rcases hl : load_model env st "base" with ⟨b, st1, tr1⟩
        have hd : st1.device = st.device := by
          have hgen := load_model_device env st "base"
          rw [hl] at hgen
          exact hgen
        cases b with
        | false => simp [transcribe_audio, hf, hn, hm, hl, hd]
        | true =>
          simp [transcribe_audio, hf, hn, hm, hl, transcribeLoaded_state, hd]

/-- The result record of `transcribe_audio` reports either no device or the
session's recorded device. -/
theorem transcribe_audio_device_report (env : Env) (st : ServiceState)
    (path : String) :
    (transcribe_audio env st path).1.device = none ∨
    (transcribe_audio env st path).1.device = some st.device := by
  cases hf : env.fs path with
  | none => left; simp [transcribe_audio, hf]
  | some n =>
    by_cases hn : n = 0
    · left; simp [transcribe_audio, hf, hn]
    · cases hm : st.model with
      | some m =>
        have := transcribeLoaded_device env st path []
        simp [transcribe_audio, hf, hn, hm]
        exact this
      | none =>
        rcases hl : load_model env st "base" with ⟨b, st1, tr1⟩
        have hd : st1.device = st.device := by
          have hgen := load_model_device env st "base"
          rw [hl] at hgen
          exact hgen
        cases b with
        | false => left; simp [transcribe_audio, hf, hn, hm, hl]
        | true =>
          have := transcribeLoaded_device env st1 path tr1
          rw [hd] at this
          simp [transcribe_audio, hf, hn, hm, hl]
          exact this

/-- C2 counterexample: with the session device mps (secondary accelerator),
`load_model` never issues a main-model load on mps — the one main-model
load it issues is on cpu, and the stored handle records cpu — refuting the
claim that the main model is loaded on the secondary accelerator. -/
theorem load_mps_main_on_cpu_counterexample :
    CallEv.loadModelC "base" Device.mps ∉
      (load_model baseEnv emptyMpsState "base").2.2 ∧
    CallEv.loadModelC "base" Device.cpu ∈
      (load_model baseEnv emptyMpsState "base").2.2 ∧
    (load_model baseEnv emptyMpsState "base").2.1.model
      = some { size := "base", dev := Device.cpu } := by
  refine ⟨by decide, by decide, rfl⟩

/-- C2 (amended): when the session device is the secondary accelerator,
`load_model` downgrades the local device to cpu for **both** the main-model
load and the alignment load; the device recorded for the session is
unchanged (still mps) and the transcription result reports mps or nothing. -/
theorem load_mps_downgrades_both (env : Env) (st : ServiceState)
    (model_size : String) (h : st.device = Device.mps) :
    (∀ s d, CallEv.loadModelC s d ∈ (load_model env st model_size).2.2 →
      d = Device.cpu) ∧
    (∀ d, CallEv.loadAlignC d ∈ (load_model env st model_size).2.2 →
      d = Device.cpu) ∧
    (load_model env st model_size).2.1.device = Device.mps ∧
    (∀ path, (transcribe_audio env st path).1.device = none ∨
      (transcribe_audio env st path).1.device = some Device.mps) := by
  have hdtu : (if st.device = Device.mps then Device.cpu else st.device)
      = Device.cpu := by rw [h]; rfl
  refine ⟨?_, ?_, ?_, ?_⟩
  · intro s d hmem
    rcases load_model_trace env st model_size _ hmem with hev | hev <;>
      rw [hdtu] at hev
    · cases hev; rfl
    · cases hev
  · intro d hmem
    rcases load_model_trace env st model_size _ hmem with hev | hev <;>
      rw [hdtu] at hev
    · cases hev
    · cases hev; rfl
  · rw [load_model_device, h]
  · intro path
    have := transcribe_audio_device_report env st path
    rw [h] at this
    exact this

/-- Witness for C2 at a concrete mps session: the issued main-model load is
on cpu and the recorded device stays mps. -/
theorem load_mps_downgrades_both_witness :
    (load_model baseEnv emptyMpsState "base").2.1.device = Device.mps :=
  (load_mps_downgrades_both baseEnv emptyMpsState "base" rfl).2.2.1

/-- C9: the device is selected exactly once, by `_setup_device` at
construction, and `load_model`, `transcribe_audio` and `cleanup_models` all
leave the recorded device unchanged. -/
theorem device_selected_once (env : Env) (st : ServiceState)
    (s path : String) :
    (initService env).device = _setup_device env ∧
    (load_model env st s).2.1.device = st.device ∧
    (transcribe_audio env st path).2.1.device = st.device ∧
    (cleanup_models env st).device = st.device := by
  refine ⟨rfl, load_model_device env st s,
    transcribe_audio_state_device env st path, ?_⟩
  rw [cleanup_models_char]
  by_cases h : env.torchAvailable <;> simp [h]

/-- Every call the loaded-model pipeline adds to the trace is an audio
decode, an inference call or an alignment call — never a model load. -/
theorem transcribeLoaded_trace (env : Env) (st : ServiceState) (path : String)
    (tr : List CallEv) :
    ∀ ev ∈ (transcribeLoaded env st path tr).2.2,
      ev ∈ tr ∨ ev = CallEv.loadAudioC path ∨
      (∃ b, ev = CallEv.transcribeC b) ∨ (∃ d, ev = CallEv.alignC d) := by
  intro ev hev
  unfold transcribeLoaded at hev
  repeat' split at hev
  all_goals simp at hev
  all_goals aesop

/-- C4 counterexample: calling `load_model` while READY with the same model
size is not a no-op — it re-issues the external main-model load call. -/
theorem load_ready_reloads_counterexample :
    (load_model baseEnv readyCpuState "base").2.2 ≠ [] ∧
    CallEv.loadModelC "base" Device.cpu ∈
      (load_model baseEnv readyCpuState "base").2.2 := by
  exact ⟨by decide, by decide⟩

/-- C4 (amended): `load_model` is not state-sensitive: whenever the
whisperx import succeeds it re-issues the external main-model load (even when
already READY with the same size), and on a main-load failure the previous
handles are still in place (no release was performed first). The
no-op-when-loaded behaviour lives only in `transcribe_audio`, which never
issues a model load when a model is already present. -/
theorem load_always_reloads (env : Env) (st : ServiceState)
    (model_size : String) :
    (env.whisperxImport = Except.ok () →
      CallEv.loadModelC model_size
          (if st.device = Device.mps then Device.cpu else st.device)
        ∈ (load_model env st model_size).2.2) ∧
    (∀ e, env.loadModelResult model_size
        (if st.device = Device.mps then Device.cpu else st.device)
          = Except.error e →
      (load_model env st model_size).2.1 = st) ∧
    (∀ m path, st.model = some m →
      ∀ s d, CallEv.loadModelC s d ∉ (transcribe_audio env st path).2.2) := by
  refine ⟨?_, ?_, ?_⟩
  · intro hw
    cases hm : env.loadModelResult model_size
        (if st.device = Device.mps then Device.cpu else st.device) with
    | error e => simp [load_model, hw, hm]
    | ok m =>
      cases ha : env.loadAlignResult
          (if st.device = Device.mps then Device.cpu else st.device) with
      | error e => simp [load_model, hw, hm, ha]
      | ok am => simp [load_model, hw, hm, ha]
  · intro e he
    cases hw : env.whisperxImport with
    | error e2 => simp [load_model, hw]
    | ok u => simp [load_model, hw, he]
  · intro m path hm s d hmem
    cases hf : env.fs path with
    | none => simp [transcribe_audio, hf] at hmem
    | some n =>
      by_cases hn : n = 0
      · simp [transcribe_audio, hf, hn] at hmem
      · have heq : (transcribe_audio env st path).2.2
            = (transcribeLoaded env st path []).2.2 := by
          simp [transcribe_audio, hf, hn, hm]
        rw [heq] at hmem
        rcases transcribeLoaded_trace env st path [] _ hmem with h | h | ⟨b, h⟩ | ⟨d2, h⟩
        · simp at h
        · cases h
        · cases h
        · cases h

/-- Witness for C4: the READY-same-size reload event at a concrete input. -/
theorem load_always_reloads_witness :
    CallEv.loadModelC "base"
        (if readyCpuState.device = Device.mps then Device.cpu
          else readyCpuState.device)
      ∈ (load_model baseEnv readyCpuState "base").2.2 :=
  (load_always_reloads baseEnv readyCpuState "base").1 rfl

/-- C6: for every path the filesystem reports as non-existent,
`transcribe_audio` returns the missing-file failure record, leaves the
state unchanged, and issues no external call at all — in particular it
never attempts a model load. -/
theorem transcribe_missing_file (env : Env) (st : ServiceState) (path : String)
    (h : env.fs path = none) :
    transcribe_audio env st path =
      ({ success := false, error := some ("Audio file not found: " ++ path) },
        st, []) := by
  simp [transcribe_audio, h]

/-- Witness for C6 at a concrete missing path. -/
theorem transcribe_missing_file_witness :
    transcribe_audio { baseEnv with fs := fun _ => none } emptyCpuState
        "/missing.wav" =
      ({ success := false,
         error := some ("Audio file not found: " ++ "/missing.wav") },
        emptyCpuState, []) :=
  transcribe_missing_file { baseEnv with fs := fun _ => none } emptyCpuState
    "/missing.wav" rfl

/-- C7: for every existing zero-byte file, `transcribe_audio` returns the
empty-input failure record with the state unchanged and an empty trace —
the audio-decode capability is never invoked. -/
theorem transcribe_empty_file (env : Env) (st : ServiceState) (path : String)
    (h : env.fs path = some 0) :
    transcribe_audio env st path =
      ({ success := false, error := some "Audio file is empty" }, st, []) := by
  simp [transcribe_audio, h]

/-- Witness for C7 at a concrete empty file. -/
theorem transcribe_empty_file_witness :
    transcribe_audio { baseEnv with fs := fun _ => some 0 } readyCpuState
        "/empty.wav" =
      ({ success := false, error := some "Audio file is empty" },
        readyCpuState, []) :=
  transcribe_empty_file { baseEnv with fs := fun _ => some 0 } readyCpuState
    "/empty.wav" rfl

/-- When the whisperx import and the main-model load succeed, `load_model`
returns `True` with the new handle stored and the device unchanged. -/
theorem load_model_ok (env : Env) (st : ServiceState) (s : String)
    (mh : ModelHandle) (hw : env.whisperxImport = Except.ok ())
    (hmh : env.loadModelResult s
      (if st.device = Device.mps then Device.cpu else st.device)
        = Except.ok mh) :
    (load_model env st s).1 = true ∧
    (load_model env st s).2.1.model = some mh ∧
    (load_model env st s).2.1.device = st.device := by
  cases ha : env.loadAlignResult
      (if st.device = Device.mps then Device.cpu else st.device) with
  | error e => simp [load_model, hw, hmh, ha]
  | ok am => simp [load_model, hw, hmh, ha]

/-- When the audio decodes to a non-empty array and the inference call
returns an empty segment list, the loaded-model pipeline fails with the
no-speech error. -/
theorem transcribeLoaded_no_speech (env : Env) (st : ServiceState)
    (path : String) (tr : List CallEv) (k : Nat) (out : TranscribeOut)
    (m : ModelHandle)
    (hw : env.whisperxImport = Except.ok ())
    (ha : env.loadAudio path = Except.ok (some k)) (hk : k ≠ 0)
    (hm : st.model = some m)
    (ht : env.runTranscribe m (_get_optimal_batch_size st.device env.memRead)
      = Except.ok out)
    (hs : out.segments = []) :
    (transcribeLoaded env st path tr).1 =
      { success := false, error := some "No speech detected in audio" } := by
  simp [transcribeLoaded, hw, ha, hk, hm, ht, hs]

/-- C8: whenever the file validates, the audio decodes successfully and the
inference capability returns zero segments (with model loading available),
`transcribe_audio` returns `success = false` with the no-speech error —
never a success with empty text. -/
theorem transcribe_zero_segments_fails (env : Env) (st : ServiceState)
    (path : String) (n k : Nat) (out : TranscribeOut)
    (hf : env.fs path = some n) (hn : n ≠ 0)
    (hw : env.whisperxImport = Except.ok ())
    (ha : env.loadAudio path = Except.ok (some k)) (hk : k ≠ 0)
    (hload : ∀ s d, ∃ mh, env.loadModelResult s d = Except.ok mh)
    (ht : ∀ m b, env.runTranscribe m b = Except.ok out)
    (hs : out.segments = []) :
    (transcribe_audio env st path).1.success = false ∧
    (transcribe_audio env st path).1.error
      = some "No speech detected in audio" := by
  cases hm : st.model with
  | some m =>
    have hres := transcribeLoaded_no_speech env st path [] k out m hw ha hk hm
      (ht m _) hs
    constructor <;> simp [transcribe_audio, hf, hn, hm, hres]
  | none =>
    obtain ⟨mh, hmh⟩ := hload "base"
      (if st.device = Device.mps then Device.cpu else st.device)
    rcases hl : load_model env st "base" with ⟨b, st1, tr1⟩
    have hok := load_model_ok env st "base" mh hw hmh
    rw [hl] at hok
    obtain ⟨hb, hm1, hd1⟩ := hok
    subst hb
    have hres := transcribeLoaded_no_speech env st1 path tr1 k out mh hw ha hk
      hm1 (by rw [hd1]; exact ht mh _) hs
    constructor <;> simp [transcribe_audio, hf, hn, hm, hl, hres]

/-- An inference result with no segments. -/
def zeroSegOut : TranscribeOut := { segments := [], language := some "en" }

/-- `baseEnv` with an inference capability that returns zero segments. -/
def zeroSegEnv : Env := { baseEnv with runTranscribe := fun _ _ => Except.ok zeroSegOut }

/-- Witness for C8 at a concrete environment whose inference capability
returns zero segments. -/
theorem transcribe_zero_segments_fails_witness :
    (transcribe_audio zeroSegEnv emptyCpuState "/a.wav").1.success = false ∧
    (transcribe_audio zeroSegEnv emptyCpuState "/a.wav").1.error
      = some "No speech detected in audio" :=
  transcribe_zero_segments_fails zeroSegEnv emptyCpuState "/a.wav" 1024 16000
    zeroSegOut rfl (by decide) rfl rfl (by decide)
    (fun s d => ⟨{ size := s, dev := d }, rfl⟩)
    (fun m b => rfl) rfl

/-- Every failure record produced by the loaded-model pipeline carries an
error message. -/
theorem transcribeLoaded_failure_error (env : Env) (st : ServiceState)
    (path : String) (tr : List CallEv) :
    (transcribeLoaded env st path tr).1.success = false →
    ∃ msg, (transcribeLoaded env st path tr).1.error = some msg := by
  unfold transcribeLoaded
  repeat' split
  all_goals intro h
  all_goals first
    | exact excResult_error _
    | exact ⟨_, rfl⟩
    | simp at h

/-- C10 counterexample: a fault raised by the external alignment capability
does not yield `success = false` — the pipeline absorbs it and still
succeeds — refuting the claim that any internal fault other than an
ImportError yields a failure record. -/
theorem transcribe_align_fault_success_counterexample :
    (transcribe_audio
        { baseEnv with
            alignCall := fun _ _ _ => Except.error (PyExc.exc "align crashed") }
        readyAlignedState "/a.wav").1.success = true := by
  rfl

/-- C10 (amended): `transcribe_audio` always returns a result record and
never propagates an exception: every failure record carries an error
message; an `ImportError` reaching the outer handler yields the
WhisperX-not-installed error; any other exception reaching it yields a
"Transcription failed: ..." message; but a fault in the alignment step is
absorbed and the call still succeeds. -/
theorem transcribe_total_error_contract (env : Env) (st : ServiceState)
    (path : String) :
    ((transcribe_audio env st path).1.success = false →
      ∃ msg, (transcribe_audio env st path).1.error = some msg) ∧
    (∀ n m imsg, env.fs path = some n → n ≠ 0 → st.model = some m →
      env.whisperxImport = Except.error (PyExc.importError imsg) →
      (transcribe_audio env st path).1.error
        = some "WhisperX not properly installed") ∧
    (∀ n m emsg, env.fs path = some n → n ≠ 0 → st.model = some m →
      env.whisperxImport = Except.ok () →
      env.loadAudio path = Except.error (PyExc.exc emsg) →
      (transcribe_audio env st path).1.error
        = some ("Transcription failed: " ++ emsg)) ∧
    (∀ n m am k out e, env.fs path = some n → n ≠ 0 → st.model = some m →
      st.align_model = some am → st.metadata = some () →
      env.whisperxImport = Except.ok () →
      env.loadAudio path = Except.ok (some k) → k ≠ 0 →
      env.runTranscribe m (_get_optimal_batch_size st.device env.memRead)
        = Except.ok out →
      out.segments ≠ [] →
      env.alignCall out.segments am st.device = Except.error e →
      (transcribe_audio env st path).1.success = true) := by
  refine ⟨?_, ?_, ?_, ?_⟩
  · intro hfail
    cases hf : env.fs path with
    | none =>
      exact ⟨"Audio file not found: " ++ path, by simp [transcribe_audio, hf]⟩
    | some n =>
      by_cases hn : n = 0
      · exact ⟨"Audio file is empty", by simp [transcribe_audio, hf, hn]⟩
      · cases hm : st.model with
        | some m =>
          have heq : (transcribe_audio env st path).1
              = (transcribeLoaded env st path []).1 := by
            simp [transcribe_audio, hf, hn, hm]
          rw [heq] at hfail ⊢
          exact transcribeLoaded_failure_error env st path [] hfail
        | none =>
          rcases hl : load_model env st "base" with ⟨b, st1, tr1⟩
          cases b with
          | false =>
            exact ⟨"Failed to load WhisperX model",
              by simp [transcribe_audio, hf, hn, hm, hl]⟩
          | true =>
            have heq : (transcribe_audio env st path).1
                = (transcribeLoaded env st1 path tr1).1 := by
              simp [transcribe_audio, hf, hn, hm, hl]
            rw [heq] at hfail ⊢
            exact transcribeLoaded_failure_error env st1 path tr1 hfail
  · intro n m imsg hf hn hm hw
    simp [transcribe_audio, hf, hn, hm, transcribeLoaded, hw, excResult]
  · intro n m emsg hf hn hm hw ha
    simp [transcribe_audio, hf, hn, hm, transcribeLoaded, hw, ha, excResult]
  · intro n m am k out e hf hn hm hal hmd hw ha hk ht hs he
    simp [transcribe_audio, hf, hn, hm, transcribeLoaded, hw, ha, hk, ht, hs,
      hal, hmd, he]

/-- `baseEnv` with the whisperx import raising `ImportError`. -/
def noWhisperxEnv : Env :=
  { baseEnv with
      whisperxImport := Except.error (PyExc.importError "No module named whisperx") }

/-- Witness for C10: with a loaded model and the whisperx import raising
`ImportError`, the result carries the WhisperX-not-installed error. -/
theorem transcribe_total_error_contract_witness :
    (transcribe_audio noWhisperxEnv readyCpuState "/a.wav").1.error
      = some "WhisperX not properly installed" :=
  (transcribe_total_error_contract noWhisperxEnv readyCpuState "/a.wav").2.1
    1024 { size := "base", dev := Device.cpu } "No module named whisperx"
    rfl (by decide) rfl rfl
